import Mathlib

/-!
# Verification of src/api/chat.js (FreeQwenApi)

A shallow embedding of the request-execution pipeline of src/api/chat.js:
the SSE stream-aggregation loop of executeApiRequest, task-id extraction,
the task-status poller, the failure classifier / retry orchestrator
handleApiError, the page pool, and the model-name fallback of sendMessage.

JavaScript values are modelled as follows: optional / possibly-undefined
string fields become Option String; JS truthiness of a string (null,
undefined and "" are falsy) is the function truthy; the short-circuit
chain a || b becomes orO; String.prototype.includes is includes, computed
structurally on the character lists.  Stateful code is modelled by explicit
state passing: the stream reader is a function over the list of read
batches, the poller over a function from attempt index to tick outcome, and
handleApiError returns its result together with a record of its side
effects.  Configuration values imported from src/config.js (a file not in
the repository snapshot): MAX_RETRY_COUNT, PAGE_POOL_SIZE and DEFAULT_MODEL
are kept as explicit parameters.
-/

namespace FreeQwenApi

/-- JS short-circuit disjunction a || b on optional values: the left value
when present, else the right. -/
def orO : Option α → Option α → Option α
  | some a, _ => some a
  | none, b => b

/-- JS truthiness of an optional string: null/undefined and the empty string
are falsy. -/
def truthy : Option String → Option String
  | some s => if s = "" then none else some s
  | none => none

/-- Whether the second character list is a prefix of the first. -/
def charsStartWith : List Char → List Char → Bool
  | _, [] => true
  | [], _ :: _ => false
  | c :: cs, p :: ps => c == p && charsStartWith cs ps

/-- Whether the second character list occurs inside the first. -/
def charsContain : List Char → List Char → Bool
  | [], pat => charsStartWith [] pat
  | c :: cs, pat => charsStartWith (c :: cs) pat || charsContain cs pat

/-- JS String.prototype.includes. -/
def includes (s pat : String) : Bool :=
  charsContain s.data pat.data

/-- JS test body && body.includes(pat) on an optional body string. -/
def bodyIncludes (body : Option String) (pat : String) : Bool :=
  match truthy body with
  | some s => includes s pat
  | none => false

/-- Concatenation of a list of strings in order. -/
def concatStrings : List String → String
  | [] => ""
  | s :: l => s ++ concatStrings l

/-- Last-seen value of an optional field over a list (a later element
overrides an earlier one). -/
def lastSome (f : α → Option β) : List α → Option β
  | [] => none
  | a :: l => orO (lastSome f l) (f a)

/-- First-seen value of an optional field over a list. -/
def firstSome (f : α → Option β) : List α → Option β
  | [] => none
  | a :: l => orO (f a) (firstSome f l)

/-! ## Streamed responses (executeApiRequest, src/api/chat.js lines 367-411) -/

/-- Usage object carried by a stream chunk (chunk.usage). -/
structure Usage where
  prompt_tokens : Nat
  completion_tokens : Nat
  total_tokens : Nat
  deriving DecidableEq, Repr

/-- The fields of one successfully parsed SSE chunk that the read loop
consults (lines 388-394): the response id of a response.created event, the
delta content and delta status of choices[0], and the usage object. -/
structure Frame where
  responseCreated : Option String
  deltaContent : Option String
  deltaStatus : Option String
  usage : Option Usage
  deriving DecidableEq, Repr

/-- One complete line of the SSE stream after the buffer is split on
newlines (lines 379-384): junk stands for a line that is skipped (blank,
without the data marker, with an empty payload, or failing JSON.parse,
lines 383-386 and the catch at 395); frame is a parsed chunk. -/
inductive Line where
  | junk
  | frame (f : Frame)
  deriving DecidableEq, Repr

/-- The mutable state of the streaming read loop (lines 370-373). -/
structure StreamState where
  fullContent : String
  responseId : Option String
  usage : Option Usage
  finished : Bool
  deriving DecidableEq, Repr

/-- Initial loop state: empty content, no response id, no usage, not
finished (lines 370-373). -/
def initStreamState : StreamState :=
  { fullContent := "", responseId := none, usage := none, finished := false }

/-- Processing of one line, in the statement order of lines 387-394: a
response.created event overwrites responseId; delta content is appended to
fullContent; a delta status of finished sets the finished flag; a usage
object overwrites usage.  An absent delta content appends nothing (in JS an
empty delta.content is falsy and skipped; appending it would be a no-op). -/
def processLine (st : StreamState) : Line → StreamState
  | .junk => st
  | .frame f =>
    let st1 := match f.responseCreated with
      | some rid => { st with responseId := some rid }
      | none => st
    let st2 := match f.deltaContent with
      | some c => { st1 with fullContent := st1.fullContent ++ c }
      | none => st1
    let st3 := if f.deltaStatus = some "finished" then { st2 with finished := true } else st2
    match f.usage with
    | some u => { st3 with usage := some u }
    | none => st3

/-- One reader.read() batch: the for loop of line 382 runs over every
complete line of the batch, even after the finished flag is set. -/
def processRead (st : StreamState) (read : List Line) : StreamState :=
  read.foldl processLine st

/-- The while loop of line 375: the finished flag is consulted only between
batches; the stream also ends when the batch list is exhausted (done). -/
def processStream (st : StreamState) : List (List Line) → StreamState
  | [] => st
  | read :: rest =>
    if st.finished then st else processStream (processRead st read) rest

/-- The whole streaming branch of executeApiRequest, as a function of the
sequence of read batches. -/
def execStream (reads : List (List Line)) : StreamState :=
  processStream initStreamState reads

/-- The parsed frames of one batch, in order. -/
def frameLines (read : List Line) : List Frame :=
  read.filterMap fun
    | .junk => none
    | .frame f => some f

/-- Whether a frame signals completion (delta.status === 'finished'). -/
def frameFinished (f : Frame) : Bool :=
  f.deltaStatus = some "finished"

/-- Whether some frame of the batch signals completion. -/
def readHasFinish (read : List Line) : Bool :=
  (frameLines read).any frameFinished

/-- The batches the loop actually consumes: every batch up to and including
the first one containing a completion frame. -/
def processedReads : List (List Line) → List (List Line)
  | [] => []
  | r :: rest => if readHasFinish r then [r] else r :: processedReads rest

/-- All frames the loop actually processes, in arrival order. -/
def processedFrames (reads : List (List Line)) : List Frame :=
  ((processedReads reads).map frameLines).flatten

/-- A concrete stream: a first batch carrying response id r1 and content A,
then a batch whose first frame signals completion and whose second frame
carries response id r2 and content X. -/
def streamCex : List (List Line) :=
  [[.frame { responseCreated := some "r1", deltaContent := some "A",
             deltaStatus := none, usage := none }],
   [.frame { responseCreated := none, deltaContent := none,
             deltaStatus := some "finished", usage := none },
    .frame { responseCreated := some "r2", deltaContent := some "X",
             deltaStatus := none, usage := none }]]

/-! ## Task-id extraction (extractTaskId, src/api/chat.js lines 629-633) -/

/-- The extra.wanx object of a message in a task-creation body. -/
structure Wanx where
  task_id : Option String
  deriving DecidableEq, Repr

/-- The extra object of a message in a task-creation body. -/
structure MsgExtra where
  wanx : Option Wanx
  deriving DecidableEq, Repr

/-- One message of the nested data object of a task-creation body. -/
structure TaskMessage where
  extra : Option MsgExtra
  deriving DecidableEq, Repr

/-- The nested data object of a task-creation response body. -/
structure TaskDataInner where
  messages : Option (List TaskMessage)
  message_id : Option String
  deriving DecidableEq, Repr

/-- A task-creation response body, restricted to the fields extractTaskId
reads. -/
structure TaskBody where
  data : Option TaskDataInner
  id : Option String
  task_id : Option String
  response_id : Option String
  deriving DecidableEq, Repr

/-- The nested provider-specific task reference
data.data?.messages?.[0]?.extra?.wanx?.task_id of a body. -/
def nestedWanxId (d : TaskBody) : Option String :=
  ((((d.data.bind TaskDataInner.messages).bind List.head?).bind
    TaskMessage.extra).bind MsgExtra.wanx).bind Wanx.task_id

/-- extractTaskId (lines 629-633): the truthy nested wanx task id of the
first message when present, else data.id || data.task_id ||
data.response_id || data.data?.message_id || null. -/
def extractTaskId (d : TaskBody) : Option String :=
  match truthy (nestedWanxId d) with
  | some t => some t
  | none =>
    orO (truthy d.id) (orO (truthy d.task_id) (orO (truthy d.response_id)
      (truthy (d.data.bind TaskDataInner.message_id))))

/-- Modelled on the spec's wording of the precedence list: the first truthy
candidate among nested provider task reference, top-level id, top-level
task reference, response id, nested message id. -/
def specTaskIdChain (d : TaskBody) : Option String :=
  firstSome truthy
    [nestedWanxId d, d.id, d.task_id, d.response_id,
     d.data.bind TaskDataInner.message_id]

/-- Outcome of the task branch of sendMessage at lines 541-547: the
extracted id, or the error value returned when none is found. -/
inductive TaskIdOutcome where
  | ok (taskId : String)
  | missing (error : String)
  deriving DecidableEq, Repr

/-- Lines 541-547: extract the task id; when extraction yields nothing the
request returns the task-id-missing error value. -/
def taskIdCheck (d : TaskBody) : TaskIdOutcome :=
  match extractTaskId d with
  | some t => .ok t
  | none => .missing "Task ID not found in response"

/-- A body carrying both a nested wanx task reference and a top-level id. -/
def bodyBothIds : TaskBody :=
  { data := some
      { messages := some [{ extra := some { wanx := some { task_id := some "nested-task" } } }],
        message_id := none },
    id := some "top-id", task_id := none, response_id := none }

/-- The body from the spec scenario: data.message_id is m1 and no other id
field is present. -/
def bodyMsgOnly : TaskBody :=
  { data := some { messages := none, message_id := some "m1" },
    id := none, task_id := none, response_id := none }

/-! ## Task polling (pollTaskStatus, src/api/chat.js lines 88-142) -/

/-- The status body of one successful poll tick, restricted to the fields
the loop reads (lines 120-130). -/
structure TaskStatusBody where
  task_status : Option String
  status : Option String
  error : Option String
  message : Option String
  deriving DecidableEq, Repr

/-- Outcome of the transport of one tick: failure (a non-ok response or a
thrown error, lines 104-116 and 134-137), or a parsed status body. -/
inductive Tick where
  | transportFail
  | ok (body : TaskStatusBody)
  deriving DecidableEq, Repr

/-- The status string the loop inspects: taskData.task_status ||
taskData.status || 'unknown' (line 120). -/
def tickStatusOf (b : TaskStatusBody) : String :=
  (orO (truthy b.task_status) (truthy b.status)).getD "unknown"

/-- Result of pollTaskStatus: completion, failure, or the timeout value of
line 141.  There is no pending result: the loop either stops at a terminal
tick or falls through to timeout. -/
inductive PollResult where
  | completed (data : TaskStatusBody)
  | failed (error : String) (data : TaskStatusBody)
  | timeout
  deriving DecidableEq, Repr

/-- Whether a tick reports a terminal status (lines 123-131). -/
def terminalTick : Tick → Bool
  | .transportFail => false
  | .ok b =>
    decide (tickStatusOf b = "completed" ∨ tickStatusOf b = "success"
      ∨ tickStatusOf b = "failed" ∨ tickStatusOf b = "error")

/-- The for loop of lines 91-138.  ticks maps the 0-indexed attempt number
to that attempt's outcome; remaining counts the attempts left.  Returns the
result together with the number of status checks issued.  A transport
failure consumes the attempt and continues (lines 113-117); a terminal
status returns at once (lines 123-131); any other status waits for the next
attempt (line 133); an exhausted budget returns the timeout value
(line 141). -/
def pollLoop (ticks : Nat → Tick) (attempt : Nat) : Nat → PollResult × Nat
  | 0 => (.timeout, 0)
  | remaining + 1 =>
    match ticks attempt with
    | .transportFail =>
      let p := pollLoop ticks (attempt + 1) remaining
      (p.1, p.2 + 1)
    | .ok b =>
      if tickStatusOf b = "completed" ∨ tickStatusOf b = "success" then
        (.completed b, 1)
      else if tickStatusOf b = "failed" ∨ tickStatusOf b = "error" then
        (.failed ((orO (truthy b.error) (truthy b.message)).getD "Task failed") b, 1)
      else
        let p := pollLoop ticks (attempt + 1) remaining
        (p.1, p.2 + 1)

/-- pollTaskStatus (lines 88-142) as a function of the tick outcomes and the
maximum number of attempts. -/
def pollTaskStatus (ticks : Nat → Tick) (maxAttempts : Nat) : PollResult × Nat :=
  pollLoop ticks 0 maxAttempts

/-! ## Retry orchestration (sendMessage and handleApiError,
src/api/chat.js lines 437-470 and 477) -/

/-- Classified outcome of one full attempt of the request path: a terminal
value (success, the verification result, or a generic error, none of which
retries), an Unauthorized failure together with the value hasValidTokens()
returns at line 445, or a RateLimited failure. -/
inductive AttemptOutcome where
  | terminalValue
  | unauthorized (hasValidTokens : Bool)
  | rateLimited
  deriving DecidableEq, Repr

/-- What the orchestration surfaces: a returned value, the process exit of
line 451, or the all-rate-limited error of line 469. -/
inductive OrchResult where
  | value
  | fatalExit
  | allRateLimitedError
  deriving DecidableEq, Repr

/-- The self-retry recursion of sendMessage through handleApiError:
outcomes k classifies the attempt made with retryCount k.  An Unauthorized
failure retries with retryCount + 1 exactly when valid tokens remain and
retryCount < maxRetry, else the process exits (lines 445-451); a
RateLimited failure retries exactly when retryCount < maxRetry, else the
all-rate-limited error is surfaced (lines 466-469).  Returns the result and
the total number of attempts issued. -/
def orchestrate (maxRetry : Nat) (outcomes : Nat → AttemptOutcome) (retryCount : Nat) :
    OrchResult × Nat :=
  match outcomes retryCount with
  | .terminalValue => (.value, 1)
  | .unauthorized hasValid =>
    if hasValid = true ∧ retryCount < maxRetry then
      let p := orchestrate maxRetry outcomes (retryCount + 1)
      (p.1, p.2 + 1)
    else (.fatalExit, 1)
  | .rateLimited =>
    if retryCount < maxRetry then
      let p := orchestrate maxRetry outcomes (retryCount + 1)
      (p.1, p.2 + 1)
    else (.allRateLimitedError, 1)
termination_by maxRetry + 1 - retryCount
decreasing_by all_goals omega

/-! ## Failure classification (handleApiError, src/api/chat.js lines 422-473) -/

/-- Result of JSON.parse on a RateLimited error body, restricted to the num
field read at line 457.  num is the reset-hours value when it is a number;
an absent or non-numeric num makes Number(rateInfo.num) NaN, which is
falsy. -/
structure RateInfo where
  num : Option Nat
  deriving DecidableEq, Repr

/-- The failure value handleApiError receives.  executeApiRequest produces
either status/statusText/errorBody (line 415) or error (line 417) and never
sets html; html is carried because handleApiError consults it at
line 427. -/
structure ApiFailure where
  status : Option Nat
  statusText : Option String
  errorBody : Option String
  error : Option String
  html : Option String
  deriving DecidableEq, Repr

/-- Number(rateInfo.num) || 24 (line 457): a missing num gives NaN, falsy,
hence 24; a num of 0 is falsy and also yields 24. -/
def hoursOf (info : RateInfo) : Nat :=
  match info.num with
  | some n => if n = 0 then 24 else n
  | none => 24

/-- The verification test of line 427: response.html &&
response.html.includes('Verification'). -/
def verificationMatch (resp : ApiFailure) : Bool :=
  bodyIncludes resp.html "Verification"

/-- The Unauthorized test of line 437: response.status === 401 ||
(response.errorBody && (includes 'Unauthorized' || includes 'Token has
expired')). -/
def unauthorizedMatch (resp : ApiFailure) : Bool :=
  decide (resp.status = some 401)
    || bodyIncludes resp.errorBody "Unauthorized"
    || bodyIncludes resp.errorBody "Token has expired"

/-- The RateLimited test of line 454: response.errorBody &&
response.errorBody.includes('RateLimited'). -/
def rateLimitedMatch (resp : ApiFailure) : Bool :=
  bodyIncludes resp.errorBody "RateLimited"

/-- The value handleApiError resolves to: the verification error value of
line 434, a re-invocation of sendMessage with the given retryCount
(lines 446 and 467), the process exit of line 451, the all-rate-limited
error of line 469, or the generic error of line 472. -/
inductive HandleResult where
  | verificationError (chatId : Option String)
  | retry (retryCount : Nat)
  | fatalExit
  | allRateLimited (chatId : Option String)
  | genericError (error : Option String) (details : String) (chatId : Option String)
  deriving DecidableEq, Repr

/-- The side effects handleApiError performs: clearing the cached authToken
(lines 431, 439, 465), marking the account invalid (line 442), marking it
rate-limited with a number of hours (line 459), and draining the page pool
(lines 430, 449). -/
structure HandleEffects where
  clearedAuthToken : Bool
  markedInvalid : Option String
  markedRateLimited : Option (String × Nat)
  drainedPool : Bool
  deriving DecidableEq, Repr

/-- No side effect. -/
def noEffects : HandleEffects :=
  { clearedAuthToken := false, markedInvalid := none,
    markedRateLimited := none, drainedPool := false }

/-- handleApiError (lines 422-473).  parsedBody is the outcome of
JSON.parse(response.errorBody) at line 456 (none when the parse throws, in
which case the catch at line 462 skips the marking); tokenId is
tokenObj?.id; hasValidTokens the value returned by hasValidTokens() at
line 445; maxRetry the config value MAX_RETRY_COUNT. -/
def handleApiError (resp : ApiFailure) (parsedBody : Option RateInfo)
    (tokenId : Option String) (retryCount maxRetry : Nat)
    (hasValidTokens : Bool) (chatId : Option String) :
    HandleResult × HandleEffects :=
  if verificationMatch resp then
    (.verificationError chatId,
     { clearedAuthToken := true, markedInvalid := none,
       markedRateLimited := none, drainedPool := true })
  else if unauthorizedMatch resp then
    if hasValidTokens = true ∧ retryCount < maxRetry then
      (.retry (retryCount + 1),
       { clearedAuthToken := true, markedInvalid := tokenId,
         markedRateLimited := none, drainedPool := false })
    else
      (.fatalExit,
       { clearedAuthToken := true, markedInvalid := tokenId,
         markedRateLimited := none, drainedPool := true })
  else if rateLimitedMatch resp then
    let marked : Option (String × Nat) :=
      match parsedBody, tokenId with
      | some info, some id => some (id, hoursOf info)
      | _, _ => none
    if retryCount < maxRetry then
      (.retry (retryCount + 1),
       { clearedAuthToken := true, markedInvalid := none,
         markedRateLimited := marked, drainedPool := false })
    else
      (.allRateLimited chatId,
       { clearedAuthToken := true, markedInvalid := none,
         markedRateLimited := marked, drainedPool := false })
  else
    (.genericError (orO (truthy resp.error) (truthy resp.statusText))
       ((truthy resp.errorBody).getD "Нет дополнительных деталей") chatId,
     noEffects)

/-- A failure whose errorBody carries the verification marker while html is
unset, as every failure produced by executeApiRequest is. -/
def verifBodyFailure : ApiFailure :=
  { status := some 500, statusText := some "Internal Server Error",
    errorBody := some "Verification required", error := none, html := none }

/-- A plain 401 failure. -/
def failure401 : ApiFailure :=
  { status := some 401, statusText := some "Unauthorized",
    errorBody := some "Unauthorized", error := none, html := none }

/-- A failure whose errorBody carries the RateLimited marker but is not
valid JSON, so JSON.parse at line 456 throws. -/
def rateLimitedBadJson : ApiFailure :=
  { status := some 429, statusText := some "Too Many Requests",
    errorBody := some "RateLimited: try later", error := none, html := none }

/-! ## The executor guard and the token gate (executeApiRequest lines
340-420, sendMessage lines 521-525) -/

/-- What the upstream fetch would return, were it issued: an ok response
(whose one body is read either as a stream of batches or as one JSON
document, depending on the payload's stream flag), a non-ok response
(lines 414-415), or a thrown error (line 417). -/
inductive FetchResult where
  | ok (reads : List (List Line)) (json : TaskBody)
  | httpError (status : Nat) (statusText : String) (body : String)
  | thrown (msg : String)
  deriving DecidableEq, Repr

/-- The classified result of executeApiRequest: an aggregated streaming
success (success:true, isTask:false), a task-creation success (success:true,
isTask:true, line 364), or a failure value. -/
inductive ExecResult where
  | streamSuccess (st : StreamState)
  | taskSuccess (body : TaskBody)
  | failure (resp : ApiFailure)
  deriving DecidableEq, Repr

/-- The failure executeApiRequest returns from the guard of line 349 before
any fetch, when the supplied token is absent or empty. -/
def tokenMissingFailure : ApiFailure :=
  { status := none, statusText := none, errorBody := none,
    error := some "Токен авторизации не найден", html := none }

/-- executeApiRequest (lines 340-420): the token guard of lines 348-349
runs before the fetch of line 351; stream selects the payload.stream branch
of lines 362-364 against the streaming loop of lines 367-411.  Returns the
result together with whether the fetch was issued. -/
def executeApiRequest (token : Option String) (stream : Bool)
    (env : FetchResult) : ExecResult × Bool :=
  match truthy token with
  | none => (.failure tokenMissingFailure, false)
  | some _ =>
    match env with
    | .ok reads json =>
      if stream = false then (.taskSuccess json, true)
      else (.streamSuccess (execStream reads), true)
    | .httpError st stText body =>
      (.failure { status := some st, statusText := some stText,
                  errorBody := some body, error := none, html := none }, true)
    | .thrown msg =>
      (.failure { status := none, statusText := none, errorBody := none,
                  error := some msg, html := none }, true)

/-- Outcome of the token lookup of sendMessage at lines 521-525. -/
inductive TokenGate where
  | proceed (token : String)
  | errorOut (error : String)
  deriving DecidableEq, Repr

/-- Lines 521-525: when the cached authToken is unset, query the page's
local storage; a still missing token returns the error value before any
API request is made. -/
def sendTokenGate (cachedToken pageToken : Option String) : TokenGate :=
  match truthy cachedToken with
  | some t => .proceed t
  | none =>
    match truthy pageToken with
    | some t => .proceed t
    | none => .errorOut "Токен авторизации не найден. Требуется перезапуск в ручном режиме."

/-- The request path from the token gate of line 521 to the executor call
of line 535: the gate's error short-circuits the attempt, else the resolved
token is handed to executeApiRequest.  The boolean records whether a fetch
was issued. -/
def sendAttempt (cachedToken pageToken : Option String) (stream : Bool)
    (env : FetchResult) : Except String ExecResult × Bool :=
  match sendTokenGate cachedToken pageToken with
  | .errorOut e => (.error e, false)
  | .proceed t =>
    let p := executeApiRequest (some t) stream env
    (.ok p.1, p.2)

/-! ## The page pool (pagePool, src/api/chat.js lines 41-84) -/

/-- The pool object: pages is the JS array of idle handles (push appends at
the end, pop removes from the end); maxSize is PAGE_POOL_SIZE from
src/config.js. -/
structure PagePool where
  pages : List Nat
  maxSize : Nat
  deriving DecidableEq, Repr

/-- The pool together with ghost instrumentation: the handles currently
held by in-flight requests and a counter from which fresh handles are
drawn. -/
structure PoolSys where
  pool : PagePool
  inFlight : List Nat
  nextId : Nat
  deriving DecidableEq, Repr

/-- pagePool.getPage (lines 45-66): pop an idle handle when one exists,
else create a fresh page (the bootstrap navigation and token extraction of
lines 50-63 touch no pool state).  The returned handle becomes
in-flight. -/
def poolGetPage (s : PoolSys) : Nat × PoolSys :=
  match s.pool.pages.getLast? with
  | some h =>
    (h, { s with pool := { s.pool with pages := s.pool.pages.dropLast },
                 inFlight := h :: s.inFlight })
  | none =>
    (s.nextId, { s with inFlight := s.nextId :: s.inFlight,
                        nextId := s.nextId + 1 })

/-- pagePool.releasePage (lines 68-74): push the handle back when the idle
set is under capacity, else close it.  Returns the new state and whether
the page was disposed. -/
def poolReleasePage (s : PoolSys) (h : Nat) : PoolSys × Bool :=
  if s.pool.pages.length < s.pool.maxSize then
    ({ s with pool := { s.pool with pages := s.pool.pages ++ [h] },
              inFlight := s.inFlight.erase h }, false)
  else
    ({ s with inFlight := s.inFlight.erase h }, true)

/-- The pool-system invariant: idle handles are distinct, in-flight handles
are distinct, no handle is both idle and in-flight, and the fresh counter
is beyond every live handle. -/
def poolInv (s : PoolSys) : Prop :=
  s.pool.pages.Nodup ∧ s.inFlight.Nodup
    ∧ (∀ h ∈ s.pool.pages, h ∉ s.inFlight)
    ∧ (∀ h ∈ s.pool.pages, h < s.nextId)
    ∧ (∀ h ∈ s.inFlight, h < s.nextId)

/-! ## Model fallback (isValidModel lines 221-224, sendMessage lines
494-499) -/

/-- isValidModel (lines 221-224): membership in the available-models
list. -/
def isValidModel (availableModels : List String) (modelName : String) : Bool :=
  availableModels.contains modelName

/-- The model substitution of sendMessage at lines 494-499.  none stands
for a null model argument; defaultModel is DEFAULT_MODEL from
src/config.js.  A falsy or whitespace-only model, and a model missing from
the available list, are silently replaced; the function is total, so the
request is never rejected at this step. -/
def resolveModel (defaultModel : String) (availableModels : List String) :
    Option String → String
  | none => defaultModel
  | some m =>
    if m.trim = "" then defaultModel
    else if isValidModel availableModels m = false then defaultModel
    else m

/-! ## Helper lemmas -/

theorem orO_none_right (a : Option α) : orO a none = a := by
  cases a <;> rfl

theorem orO_none_left (b : Option α) : orO none b = b := rfl

theorem orO_some_left (a : α) (b : Option α) : orO (some a) b = some a := rfl

theorem orO_assoc (a b c : Option α) : orO (orO a b) c = orO a (orO b c) := by
  cases a <;> rfl

theorem lastSome_append (f : α → Option β) (l₁ l₂ : List α) :
    lastSome f (l₁ ++ l₂) = orO (lastSome f l₂) (lastSome f l₁) := by
  induction l₁ with
  | nil => simp [lastSome, orO_none_right]
  | cons a l ih => simp [lastSome, ih, orO_assoc]

theorem concatStrings_append (l₁ l₂ : List String) :
    concatStrings (l₁ ++ l₂) = concatStrings l₁ ++ concatStrings l₂ := by
  induction l₁ with
  | nil => simp [concatStrings, String.empty_append]
  | cons s l ih => simp [concatStrings, ih, String.append_assoc]

/-! ## The streaming loop, characterized -/

theorem processLine_frame (st : StreamState) (f : Frame) :
    processLine st (.frame f) =
      { fullContent := st.fullContent ++ f.deltaContent.getD "",
        responseId := orO f.responseCreated st.responseId,
        usage := orO f.usage st.usage,
        finished := st.finished || frameFinished f } := by
  obtain ⟨rc, dc, ds, u⟩ := f
  obtain ⟨fc, ri, us, fin⟩ := st
  simp only [processLine, frameFinished]
  cases rc <;> cases dc <;> cases u <;>
    by_cases h : ds = some "finished" <;>
      simp [h, orO, String.append_empty]

theorem processRead_char (read : List Line) (st : StreamState) :
    processRead st read =
      { fullContent := st.fullContent
          ++ concatStrings ((frameLines read).filterMap Frame.deltaContent),
        responseId := orO (lastSome Frame.responseCreated (frameLines read)) st.responseId,
        usage := orO (lastSome Frame.usage (frameLines read)) st.usage,
        finished := st.finished || readHasFinish read } := by
  induction read generalizing st with
  | nil =>
    simp [processRead, frameLines, lastSome, concatStrings, readHasFinish, orO,
      String.append_empty]
  | cons l rest ih =>
    cases l with
    | junk =>
      have h1 : processRead st (Line.junk :: rest) = processRead st rest := rfl
      rw [h1, ih]
      simp [frameLines, readHasFinish]
    | frame f =>
      have h1 : processRead st (Line.frame f :: rest)
          = processRead (processLine st (.frame f)) rest := rfl
      rw [h1, ih, processLine_frame]
      rcases f with ⟨rc, dc, ds, u⟩
      cases dc <;>
        simp [frameLines, readHasFinish, lastSome, concatStrings, frameFinished,
          orO_assoc, String.append_assoc, String.append_empty, Bool.or_assoc]

theorem processStream_finished (st : StreamState) (h : st.finished = true) :
    ∀ l, processStream st l = st := by
  intro l
  cases l <;> simp [processStream, h]

theorem processStream_char (reads : List (List Line)) (st : StreamState)
    (h : st.finished = false) :
    processStream st reads =
      { fullContent := st.fullContent
          ++ concatStrings ((processedFrames reads).filterMap Frame.deltaContent),
        responseId := orO (lastSome Frame.responseCreated (processedFrames reads)) st.responseId,
        usage := orO (lastSome Frame.usage (processedFrames reads)) st.usage,
        finished := (processedFrames reads).any frameFinished } := by
  induction reads generalizing st with
  | nil =>
    obtain ⟨fc, ri, us, fin⟩ := st
    simp only at h
    subst h
    simp [processStream, processedFrames, processedReads, concatStrings, lastSome, orO,
      String.append_empty]
  | cons r rest ih =>
    have h1 : processStream st (r :: rest)
        = if st.finished then st else processStream (processRead st r) rest := rfl
    rw [h1, if_neg (by simp [h])]
    by_cases hr : readHasFinish r = true
    · have hfin : (processRead st r).finished = true := by
        rw [processRead_char]; simp [h, hr]
      have hpf : processedFrames (r :: rest) = frameLines r := by
        simp [processedFrames, processedReads, hr]
      have hany : (frameLines r).any frameFinished = true := hr
      rw [processStream_finished _ hfin, processRead_char, hpf]
      simp [h, hany, hr]
    · have hrf : readHasFinish r = false := by simpa using hr
      have hfin : (processRead st r).finished = false := by
        rw [processRead_char]; simp [h, hrf]
      have hpf : processedFrames (r :: rest) = frameLines r ++ processedFrames rest := by
        simp [processedFrames, processedReads, hrf]
      have hany : (frameLines r).any frameFinished = false := hrf
      rw [ih _ hfin, processRead_char, hpf]
      simp [h, hany, List.filterMap_append, concatStrings_append, lastSome_append,
        List.any_append, orO_assoc, String.append_assoc]

/-- C1 (amended): for every streamed response, the returned message content
equals the concatenation, in arrival order, of the delta contents of all
processed frames — the frames of every read batch up to and including the
first batch containing a completion frame (frames later in that same batch
are still processed); the returned usage is the last-seen usage object
among those frames; and the retained response id is the last-seen (not the
first-seen) response id among them. -/
theorem streamAggregation_spec (reads : List (List Line)) :
    (execStream reads).fullContent
        = concatStrings ((processedFrames reads).filterMap Frame.deltaContent)
    ∧ (execStream reads).usage = lastSome Frame.usage (processedFrames reads)
    ∧ (execStream reads).responseId
        = lastSome Frame.responseCreated (processedFrames reads) := by
  have h := processStream_char reads initStreamState rfl
  refine ⟨?_, ?_, ?_⟩ <;> simp only [execStream] <;> rw [h] <;>
    simp [initStreamState, orO_none_right, String.empty_append]

/-- C1 counterexample: on the stream streamCex the code retains response id
r2, the last-seen one, while the first-seen response id is r1; and the
content X of the frame that arrives after the completion frame, inside the
same read batch, is still aggregated (the content is AX, not the A that
stopping at the completion frame would give).  This refutes the claim that
the first-seen response id is retained and that aggregation stops at the
completion frame. -/
theorem streamAggregation_cex :
    (execStream streamCex).responseId = some "r2"
    ∧ firstSome Frame.responseCreated (processedFrames streamCex) = some "r1"
    ∧ (execStream streamCex).fullContent = "AX" := by
  refine ⟨rfl, rfl, by decide⟩

/-! ## Task-id extraction -/

/-- C2: extractTaskId returns the first truthy candidate in the precedence
order nested provider task reference, top-level id, top-level task
reference, response id, nested message id; a body with no candidate makes
the request surface the task-id-missing error; a body with both a nested
reference and a top-level id yields the nested reference; and the body
whose only id field is the nested message id m1 yields m1. -/
theorem extractTaskId_spec :
    (∀ d : TaskBody, extractTaskId d = specTaskIdChain d)
    ∧ (∀ d : TaskBody, extractTaskId d = none →
        taskIdCheck d = .missing "Task ID not found in response")
    ∧ extractTaskId bodyBothIds = some "nested-task"
    ∧ extractTaskId bodyMsgOnly = some "m1" := by
  refine ⟨?_, ?_, rfl, rfl⟩
  · intro d
    simp only [extractTaskId, specTaskIdChain, firstSome]
    cases truthy (nestedWanxId d) <;>
      simp [orO_none_left, orO_some_left, orO_none_right]
  · intro d hd
    simp [taskIdCheck, hd]

/-! ## The polling loop, characterized -/

theorem pollLoop_count_le (ticks : Nat → Tick) :
    ∀ remaining attempt, (pollLoop ticks attempt remaining).2 ≤ remaining := by
  intro remaining
  induction remaining with
  | zero => intro a; simp [pollLoop]
  | succ r ih =>
    intro a
    simp only [pollLoop]
    cases ticks a with
    | transportFail => simpa using Nat.succ_le_succ (ih (a + 1))
    | ok b =>
      by_cases h1 : tickStatusOf b = "completed" ∨ tickStatusOf b = "success"
      · simp [h1]
      · by_cases h2 : tickStatusOf b = "failed" ∨ tickStatusOf b = "error"
        · simp [h1, h2]
        · simpa [h1, h2] using Nat.succ_le_succ (ih (a + 1))

theorem pollLoop_first_terminal (ticks : Nat → Tick) :
    ∀ remaining attempt i, i < remaining → terminalTick (ticks (attempt + i)) = true →
      (∀ j, j < i → terminalTick (ticks (attempt + j)) = false) →
      (pollLoop ticks attempt remaining).2 = i + 1
      ∧ (pollLoop ticks attempt remaining).1 ≠ .timeout := by
  intro remaining
  induction remaining with
  | zero => intro a i hi; omega
  | succ r ih =>
    intro a i hi hterm hprev
    cases i with
    | zero =>
      simp only [Nat.add_zero] at hterm
      cases htick : ticks a with
      | transportFail => rw [htick] at hterm; simp [terminalTick] at hterm
      | ok b =>
        rw [htick] at hterm
        simp only [terminalTick, decide_eq_true_eq] at hterm
        simp only [pollLoop, htick]
        by_cases h1 : tickStatusOf b = "completed" ∨ tickStatusOf b = "success"
        · simp [h1]
        · have h2 : tickStatusOf b = "failed" ∨ tickStatusOf b = "error" := by tauto
          simp [h1, h2]
    | succ k =>
      have hnt : terminalTick (ticks a) = false := by
        simpa using hprev 0 (by omega)
      have hterm2 : terminalTick (ticks (a + 1 + k)) = true := by
        rw [show a + 1 + k = a + (k + 1) by omega]; exact hterm
      have hprev2 : ∀ j, j < k → terminalTick (ticks (a + 1 + j)) = false := by
        intro j hj
        rw [show a + 1 + j = a + (j + 1) by omega]
        exact hprev (j + 1) (by omega)
      have hrec := ih (a + 1) k (by omega) hterm2 hprev2
      cases htick : ticks a with
      | transportFail =>
        simp only [pollLoop, htick]
        exact ⟨by simp [hrec.1], by simpa using hrec.2⟩
      | ok b =>
        rw [htick] at hnt
        simp only [terminalTick, decide_eq_false_iff_not] at hnt
        push_neg at hnt
        obtain ⟨h1, h2, h3, h4⟩ := hnt
        simp only [pollLoop, htick]
        rw [if_neg (by tauto), if_neg (by tauto)]
        exact ⟨by simp [hrec.1], by simpa using hrec.2⟩

theorem pollLoop_timeout (ticks : Nat → Tick) :
    ∀ remaining attempt,
      (∀ i, i < remaining → terminalTick (ticks (attempt + i)) = false) →
      pollLoop ticks attempt remaining = (.timeout, remaining) := by
  intro remaining
  induction remaining with
  | zero => intro a _; rfl
  | succ r ih =>
    intro a hall
    have hnt : terminalTick (ticks a) = false := by
      simpa using hall 0 (by omega)
    have hall2 : ∀ i, i < r → terminalTick (ticks (a + 1 + i)) = false := by
      intro i hi
      rw [show a + 1 + i = a + (i + 1) by omega]
      exact hall (i + 1) (by omega)
    cases htick : ticks a with
    | transportFail =>
      simp only [pollLoop, htick]
      rw [ih (a + 1) hall2]
    | ok b =>
      rw [htick] at hnt
      simp only [terminalTick, decide_eq_false_iff_not] at hnt
      push_neg at hnt
      obtain ⟨h1, h2, h3, h4⟩ := hnt
      simp only [pollLoop, htick]
      rw [if_neg (by tauto), if_neg (by tauto), ih (a + 1) hall2]

/-- C3: pollTaskStatus issues at most maxAttempts status checks; the first
terminal tick (0-indexed attempt i) stops polling immediately, after
exactly i + 1 checks and with a non-timeout result, so no further check is
issued; a tick whose transport fails consumes exactly one attempt and
leaves the loop to continue in the same pending state at the next attempt;
and when none of the maxAttempts ticks is terminal the result is the
timeout value after exactly maxAttempts checks — never a pending status. -/
theorem pollTaskStatus_spec (ticks : Nat → Tick) (maxAttempts : Nat) :
    ((pollTaskStatus ticks maxAttempts).2 ≤ maxAttempts)
    ∧ (∀ i, i < maxAttempts → terminalTick (ticks i) = true →
        (∀ j, j < i → terminalTick (ticks j) = false) →
        (pollTaskStatus ticks maxAttempts).2 = i + 1
        ∧ (pollTaskStatus ticks maxAttempts).1 ≠ .timeout)
    ∧ ((∀ i, i < maxAttempts → terminalTick (ticks i) = false) →
        pollTaskStatus ticks maxAttempts = (.timeout, maxAttempts))
    ∧ (∀ attempt remaining, ticks attempt = .transportFail →
        pollLoop ticks attempt (remaining + 1)
          = ((pollLoop ticks (attempt + 1) remaining).1,
             (pollLoop ticks (attempt + 1) remaining).2 + 1)) := by
  refine ⟨pollLoop_count_le ticks maxAttempts 0, ?_, ?_, ?_⟩
  · intro i hi hterm hprev
    have := pollLoop_first_terminal ticks maxAttempts 0 i hi
      (by simpa using hterm) (fun j hj => by simpa using hprev j hj)
    exact this
  · intro hall
    exact pollLoop_timeout ticks maxAttempts 0 (fun i hi => by simpa using hall i hi)
  · intro attempt remaining htick
    simp only [pollLoop, htick]

/-! ## The retry orchestration, bounded -/

theorem orchestrate_terminal (maxRetry : Nat) (outcomes : Nat → AttemptOutcome)
    (rc : Nat) (ho : outcomes rc = .terminalValue) :
    orchestrate maxRetry outcomes rc = (.value, 1) := by
  rw [orchestrate, ho]

theorem orchestrate_unauthorized (maxRetry : Nat) (outcomes : Nat → AttemptOutcome)
    (rc : Nat) (hv : Bool) (ho : outcomes rc = .unauthorized hv) :
    orchestrate maxRetry outcomes rc =
      if hv = true ∧ rc < maxRetry then
        ((orchestrate maxRetry outcomes (rc + 1)).1,
         (orchestrate maxRetry outcomes (rc + 1)).2 + 1)
      else (.fatalExit, 1) := by
  rw [orchestrate, ho]

theorem orchestrate_rateLimited (maxRetry : Nat) (outcomes : Nat → AttemptOutcome)
    (rc : Nat) (ho : outcomes rc = .rateLimited) :
    orchestrate maxRetry outcomes rc =
      if rc < maxRetry then
        ((orchestrate maxRetry outcomes (rc + 1)).1,
         (orchestrate maxRetry outcomes (rc + 1)).2 + 1)
      else (.allRateLimitedError, 1) := by
  rw [orchestrate, ho]

theorem orchestrate_count_le (maxRetry : Nat) (outcomes : Nat → AttemptOutcome) :
    ∀ k rc, maxRetry - rc ≤ k → (orchestrate maxRetry outcomes rc).2 ≤ maxRetry - rc + 1 := by
  intro k
  induction k with
  | zero =>
    intro rc h
    have hge : ¬ rc < maxRetry := by omega
    cases ho : outcomes rc with
    | terminalValue =>
      rw [orchestrate_terminal maxRetry outcomes rc ho]
      show 1 ≤ maxRetry - rc + 1
      omega
    | unauthorized hv =>
      rw [orchestrate_unauthorized maxRetry outcomes rc hv ho, if_neg (by tauto)]
      show 1 ≤ maxRetry - rc + 1
      omega
    | rateLimited =>
      rw [orchestrate_rateLimited maxRetry outcomes rc ho, if_neg hge]
      show 1 ≤ maxRetry - rc + 1
      omega
  | succ k ih =>
    intro rc h
    cases ho : outcomes rc with
    | terminalValue =>
      rw [orchestrate_terminal maxRetry outcomes rc ho]
      show 1 ≤ maxRetry - rc + 1
      omega
    | unauthorized hv =>
      rw [orchestrate_unauthorized maxRetry outcomes rc hv ho]
      by_cases hc : hv = true ∧ rc < maxRetry
      · rw [if_pos hc]
        have hle := ih (rc + 1) (by omega)
        have hlt : rc < maxRetry := hc.2
        show (orchestrate maxRetry outcomes (rc + 1)).2 + 1 ≤ maxRetry - rc + 1
        omega
      · rw [if_neg hc]
        show 1 ≤ maxRetry - rc + 1
        omega
    | rateLimited =>
      rw [orchestrate_rateLimited maxRetry outcomes rc ho]
      by_cases hc : rc < maxRetry
      · rw [if_pos hc]
        have hle := ih (rc + 1) (by omega)
        show (orchestrate maxRetry outcomes (rc + 1)).2 + 1 ≤ maxRetry - rc + 1
        omega
      · rw [if_neg hc]
        show 1 ≤ maxRetry - rc + 1
        omega

/-- C4: for any sequence of Unauthorized/RateLimited attempt outcomes, the
orchestration issues at most maxRetry + 1 total attempts of the full
request path before surfacing a terminal result: each retry re-invokes the
path with retryCount + 1 and happens only while retryCount < maxRetry (so
the self-recursion is well-founded, which is what makes orchestrate total);
once retryCount reaches maxRetry, exactly one further attempt is issued and
its result is surfaced without retry. -/
theorem retryOrchestration_bounded (maxRetry : Nat) (outcomes : Nat → AttemptOutcome) :
    (orchestrate maxRetry outcomes 0).2 ≤ maxRetry + 1
    ∧ (∀ rc, maxRetry ≤ rc → (orchestrate maxRetry outcomes rc).2 = 1) := by
  constructor
  · have := orchestrate_count_le maxRetry outcomes maxRetry 0 (by omega)
    simpa using this
  · intro rc hrc
    cases ho : outcomes rc with
    | terminalValue => rw [orchestrate_terminal maxRetry outcomes rc ho]
    | unauthorized hv =>
      rw [orchestrate_unauthorized maxRetry outcomes rc hv ho, if_neg (by omega)]
    | rateLimited =>
      rw [orchestrate_rateLimited maxRetry outcomes rc ho, if_neg (by omega)]

/-! ## Failure classification -/

/-- C5 (amended): handleApiError classifies every failure by first-match
precedence, with the verification marker sought in the html field of the
response object — a field executeApiRequest never sets — rather than in the
response body: (a) html containing the marker yields the
verification-required result; else (b) HTTP status 401 or an
authorization-expired marker in the body yields the Unauthorized handling
(retry, or process exit); else (c) a rate-limit marker in the body yields
the RateLimited handling (retry, or the all-rate-limited error); else (d) a
generic error carrying the error/status text and the body is surfaced, with
no retry and no side effect. -/
theorem handleApiError_classification (resp : ApiFailure) (parsedBody : Option RateInfo)
    (tokenId : Option String) (retryCount maxRetry : Nat) (hv : Bool)
    (chatId : Option String) :
    (verificationMatch resp = true →
      (handleApiError resp parsedBody tokenId retryCount maxRetry hv chatId).1
        = .verificationError chatId)
    ∧ (verificationMatch resp = false → unauthorizedMatch resp = true →
        (handleApiError resp parsedBody tokenId retryCount maxRetry hv chatId).1
          = if hv = true ∧ retryCount < maxRetry then .retry (retryCount + 1)
            else .fatalExit)
    ∧ (verificationMatch resp = false → unauthorizedMatch resp = false →
        rateLimitedMatch resp = true →
        (handleApiError resp parsedBody tokenId retryCount maxRetry hv chatId).1
          = if retryCount < maxRetry then .retry (retryCount + 1)
            else .allRateLimited chatId)
    ∧ (verificationMatch resp = false → unauthorizedMatch resp = false →
        rateLimitedMatch resp = false →
        (handleApiError resp parsedBody tokenId retryCount maxRetry hv chatId)
          = (.genericError (orO (truthy resp.error) (truthy resp.statusText))
               ((truthy resp.errorBody).getD "Нет дополнительных деталей") chatId,
             noEffects)) := by
  refine ⟨?_, ?_, ?_, ?_⟩
  · intro h1
    simp [handleApiError, h1]
  · intro h1 h2
    by_cases hc : hv = true ∧ retryCount < maxRetry <;>
      simp [handleApiError, h1, h2, hc]
  · intro h1 h2 h3
    by_cases hc : retryCount < maxRetry <;>
      simp [handleApiError, h1, h2, h3, hc]
  · intro h1 h2 h3
    simp [handleApiError, h1, h2, h3]

/-- C5 counterexample: a failure produced by the executor whose error body
contains the verification marker (html unset, as in every failure the
executor produces) is classified as a generic error, not as
verification-required: the code consults html, not the body. -/
theorem handleApiError_verification_cex :
    bodyIncludes verifBodyFailure.errorBody "Verification" = true
    ∧ (handleApiError verifBodyFailure none none 0 3 true none).1
        = .genericError (some "Internal Server Error") "Verification required" none := by
  refine ⟨by decide, by decide⟩

/-- C6 (amended): on the RateLimited path an exhausted retry budget
surfaces the all-rate-limited error value regardless of how many accounts
remain usable; on the Unauthorized path the process exits not only when no
valid tokens remain but whenever the retry budget is exhausted — even with
usable accounts remaining — and a retry happens only when tokens remain
usable and the budget is not exhausted. -/
theorem handleApiError_exhaustion (resp : ApiFailure) (parsedBody : Option RateInfo)
    (tokenId : Option String) (retryCount maxRetry : Nat) (hv : Bool)
    (chatId : Option String) :
    (verificationMatch resp = false → unauthorizedMatch resp = false →
      rateLimitedMatch resp = true → maxRetry ≤ retryCount →
      (handleApiError resp parsedBody tokenId retryCount maxRetry hv chatId).1
        = .allRateLimited chatId)
    ∧ (verificationMatch resp = false → unauthorizedMatch resp = true →
        (hv = false ∨ maxRetry ≤ retryCount) →
        (handleApiError resp parsedBody tokenId retryCount maxRetry hv chatId).1
          = .fatalExit)
    ∧ (verificationMatch resp = false → unauthorizedMatch resp = true →
        hv = true → retryCount < maxRetry →
        (handleApiError resp parsedBody tokenId retryCount maxRetry hv chatId).1
          = .retry (retryCount + 1)) := by
  refine ⟨?_, ?_, ?_⟩
  · intro h1 h2 h3 h4
    have hlt : ¬ retryCount < maxRetry := by omega
    simp [handleApiError, h1, h2, h3, hlt]
  · intro h1 h2 h3
    have hc : ¬ (hv = true ∧ retryCount < maxRetry) := by
      rcases h3 with h | h
      · simp [h]
      · intro hcon; omega
    simp [handleApiError, h1, h2, hc]
  · intro h1 h2 h3 h4
    simp [handleApiError, h1, h2, h3, h4]

/-- C6 counterexample: an Unauthorized failure with the retry budget
exhausted (retryCount = maxRetry = 3) while accounts remain usable
(hasValidTokens = true) drives the process-exit branch of line 451, not a
surfaced error value: orderly shutdown and exit are not reserved to the
zero-usable-accounts case. -/
theorem handleApiError_budget_cex :
    (handleApiError failure401 none (some "acc1") 3 3 true none).1 = .fatalExit := by
  decide

/-- C7 (amended): when the error body contains the rate-limit marker,
parses as JSON, and an account id is present, the account is marked
rate-limited for the number of hours embedded in the parsed body,
defaulting to 24 hours when the parsed body omits the value (num of 0, a
falsy value, also yields 24); a body with num 2 marks exactly 2 hours.
When the body fails to parse as JSON no account is marked, although the
retry handling still proceeds. -/
theorem rateLimited_marking (resp : ApiFailure) (info : RateInfo) (id : String)
    (tokenId : Option String) (retryCount maxRetry : Nat) (hv : Bool)
    (chatId : Option String) :
    (verificationMatch resp = false → unauthorizedMatch resp = false →
      rateLimitedMatch resp = true →
      (handleApiError resp (some info) (some id) retryCount maxRetry hv chatId).2.markedRateLimited
          = some (id, hoursOf info)
        ∧ (handleApiError resp none tokenId retryCount maxRetry hv chatId).2.markedRateLimited
          = none)
    ∧ (info.num = none → hoursOf info = 24)
    ∧ hoursOf { num := some 2 } = 2
    ∧ hoursOf { num := some 0 } = 24 := by
  refine ⟨?_, ?_, rfl, rfl⟩
  · intro h1 h2 h3
    constructor <;>
      by_cases hc : retryCount < maxRetry <;>
        simp [handleApiError, h1, h2, h3, hc]
  · intro h
    simp [hoursOf, h]

/-- C7 counterexample: a body containing the rate-limit marker that is not
valid JSON (JSON.parse at line 456 throws, caught at line 462) leaves the
account unmarked — the claimed 24-hour default marking does not happen —
while the retry still proceeds. -/
theorem rateLimited_parsefail_cex :
    rateLimitedMatch rateLimitedBadJson = true
    ∧ (handleApiError rateLimitedBadJson none (some "acc2") 0 3 true none).2.markedRateLimited
        = none
    ∧ (handleApiError rateLimitedBadJson none (some "acc2") 0 3 true none).1
        = .retry 1 := by
  refine ⟨by decide, by decide, by decide⟩

/-! ## No unauthenticated upstream call -/

/-- C8: when, after consulting the cached token and querying the page's
local storage, no truthy token is available, the attempt returns the error
value of line 524 and no fetch is issued; executeApiRequest itself returns
the token-missing failure before performing the fetch whenever the supplied
token is absent or empty (line 349); and a fetch is issued only when the
supplied token was truthy — so an unauthenticated upstream call is never
made. -/
theorem noUnauthenticatedCall (cached pageToken token : Option String)
    (stream : Bool) (env : FetchResult) :
    (truthy cached = none → truthy pageToken = none →
      sendAttempt cached pageToken stream env
        = (.error "Токен авторизации не найден. Требуется перезапуск в ручном режиме.", false))
    ∧ (truthy token = none →
        executeApiRequest token stream env = (.failure tokenMissingFailure, false))
    ∧ ((executeApiRequest token stream env).2 = true → truthy token ≠ none) := by
  refine ⟨?_, ?_, ?_⟩
  · intro h1 h2
    simp [sendAttempt, sendTokenGate, h1, h2]
  · intro h
    simp [executeApiRequest, h]
  · intro hfetch hcon
    simp [executeApiRequest, hcon] at hfetch

/-! ## The page pool -/

theorem poolGetPage_none (s : PoolSys) (hp : s.pool.pages.getLast? = none) :
    poolGetPage s
      = (s.nextId, { s with inFlight := s.nextId :: s.inFlight,
                            nextId := s.nextId + 1 }) := by
  unfold poolGetPage
  rw [hp]

theorem poolGetPage_some (s : PoolSys) (h0 : Nat)
    (hp : s.pool.pages.getLast? = some h0) :
    poolGetPage s
      = (h0, { s with pool := { s.pool with pages := s.pool.pages.dropLast },
                      inFlight := h0 :: s.inFlight }) := by
  unfold poolGetPage
  rw [hp]

theorem poolReleasePage_lt (s : PoolSys) (h : Nat)
    (hcap : s.pool.pages.length < s.pool.maxSize) :
    poolReleasePage s h
      = ({ s with pool := { s.pool with pages := s.pool.pages ++ [h] },
                  inFlight := s.inFlight.erase h }, false) := by
  unfold poolReleasePage
  rw [if_pos hcap]

theorem poolReleasePage_ge (s : PoolSys) (h : Nat)
    (hcap : ¬ s.pool.pages.length < s.pool.maxSize) :
    poolReleasePage s h = ({ s with inFlight := s.inFlight.erase h }, true) := by
  unfold poolReleasePage
  rw [if_neg hcap]

/-- C9: under the pool invariant, a handle handed out by getPage has been
removed from the idle set before being returned and was held by no
in-flight request (and both operations preserve the invariant, so no handle
is ever held by two in-flight requests simultaneously); a handle released
while the idle set is under capacity is pushed back and is exactly the
handle the next getPage returns; a handle released at capacity is disposed
and the idle set is unchanged. -/
theorem pagePool_exclusive (s : PoolSys) (h : Nat) :
    (poolInv s →
      poolInv (poolGetPage s).2
      ∧ (poolGetPage s).1 ∉ (poolGetPage s).2.pool.pages
      ∧ (poolGetPage s).1 ∉ s.inFlight)
    ∧ (poolInv s → h ∈ s.inFlight → poolInv (poolReleasePage s h).1)
    ∧ (s.pool.pages.length < s.pool.maxSize →
        (poolReleasePage s h).2 = false
        ∧ (poolReleasePage s h).1.pool.pages = s.pool.pages ++ [h]
        ∧ (poolGetPage (poolReleasePage s h).1).1 = h)
    ∧ (s.pool.maxSize ≤ s.pool.pages.length →
        (poolReleasePage s h).2 = true
        ∧ (poolReleasePage s h).1.pool.pages = s.pool.pages) := by
  refine ⟨?_, ?_, ?_, ?_⟩
  · rintro ⟨hnp, hnf, hdisj, hbp, hbf⟩
    cases hp : s.pool.pages.getLast? with
    | none =>
      have hfresh : s.nextId ∉ s.inFlight := fun hcon => absurd (hbf _ hcon) (by omega)
      have hfreshp : s.nextId ∉ s.pool.pages := fun hcon => absurd (hbp _ hcon) (by omega)
      rw [poolGetPage_none s hp]
      refine ⟨⟨hnp, List.nodup_cons.mpr ⟨hfresh, hnf⟩, ?_, ?_, ?_⟩, hfreshp, hfresh⟩
      · intro x hx
        rw [List.mem_cons, not_or]
        exact ⟨fun hcon => absurd (hbp x hx) (by omega), hdisj x hx⟩
      · intro x hx
        exact Nat.lt_succ_of_lt (hbp x hx)
      · intro x hx
        rcases List.mem_cons.mp hx with hx1 | hx1
        · rw [hx1]; exact Nat.lt_succ_self _
        · exact Nat.lt_succ_of_lt (hbf x hx1)
    | some h0 =>
      obtain ⟨hne, hh0⟩ :=
        List.mem_getLast?_eq_getLast (x := h0) (by simpa [Option.mem_def] using hp)
      have hmem : h0 ∈ s.pool.pages := hh0 ▸ List.getLast_mem hne
      have hsplit : s.pool.pages.dropLast ++ [h0] = s.pool.pages := by
        rw [hh0]; exact List.dropLast_append_getLast hne
      have hnotdrop : h0 ∉ s.pool.pages.dropLast := by
        have hnd := hsplit ▸ hnp
        rcases List.nodup_append.mp hnd with ⟨_, _, hdj⟩
        intro hcon
        exact hdj hcon (List.mem_singleton_self h0)
      have hnotf : h0 ∉ s.inFlight := hdisj h0 hmem
      rw [poolGetPage_some s h0 hp]
      refine ⟨⟨List.Sublist.nodup (List.dropLast_sublist _) hnp,
              List.nodup_cons.mpr ⟨hnotf, hnf⟩, ?_, ?_, ?_⟩, hnotdrop, hnotf⟩
      · intro x hx
        have hxmem : x ∈ s.pool.pages := (List.dropLast_sublist _).mem hx
        rw [List.mem_cons, not_or]
        refine ⟨fun hcon => ?_, hdisj x hxmem⟩
        rw [hcon] at hx
        exact hnotdrop hx
      · intro x hx
        exact hbp x ((List.dropLast_sublist _).mem hx)
      · intro x hx
        rcases List.mem_cons.mp hx with hx1 | hx1
        · rw [hx1]; exact hbp h0 hmem
        · exact hbf x hx1
  · rintro ⟨hnp, hnf, hdisj, hbp, hbf⟩ hin
    by_cases hcap : s.pool.pages.length < s.pool.maxSize
    · have hnotp : h ∉ s.pool.pages := fun hcon => hdisj h hcon hin
      rw [poolReleasePage_lt s h hcap]
      refine ⟨?_, hnf.erase h, ?_, ?_, ?_⟩
      · exact List.nodup_append.mpr
          ⟨hnp, List.nodup_singleton h,
           fun x hx hx1 => (List.mem_singleton.mp hx1 ▸ hnotp) hx⟩
      · intro x hx
        rcases List.mem_append.mp hx with hx1 | hx1
        · intro hcon
          exact hdisj x hx1 (List.mem_of_mem_erase hcon)
        · rw [List.mem_singleton.mp hx1]
          exact hnf.not_mem_erase
      · intro x hx
        rcases List.mem_append.mp hx with hx1 | hx1
        · exact hbp x hx1
        · rw [List.mem_singleton.mp hx1]
          exact hbf h hin
      · intro x hx
        exact hbf x (List.mem_of_mem_erase hx)
    · rw [poolReleasePage_ge s h hcap]
      refine ⟨hnp, hnf.erase h, ?_, hbp, ?_⟩
      · intro x hx hcon
        exact hdisj x hx (List.mem_of_mem_erase hcon)
      · intro x hx
        exact hbf x (List.mem_of_mem_erase hx)
  · intro hcap
    rw [poolReleasePage_lt s h hcap]
    refine ⟨rfl, rfl, ?_⟩
    rw [poolGetPage_some _ h (by simp [List.getLast?_concat])]
  · intro hcap
    have hcap2 : ¬ s.pool.pages.length < s.pool.maxSize := by omega
    rw [poolReleasePage_ge s h hcap2]
    exact ⟨rfl, rfl⟩

/-! ## Model fallback -/

/-- C10: a null, empty or whitespace-only model argument, and one not
contained in the available-models list, are silently replaced by the
default model, and the request proceeds with the substitute — resolveModel
is total, so this step never rejects a request; a nonempty listed model is
kept. -/
theorem modelFallback_default (defaultModel : String) (availableModels : List String) :
    resolveModel defaultModel availableModels none = defaultModel
    ∧ (∀ m, m.trim = "" →
        resolveModel defaultModel availableModels (some m) = defaultModel)
    ∧ (∀ m, isValidModel availableModels m = false →
        resolveModel defaultModel availableModels (some m) = defaultModel)
    ∧ (∀ m, m.trim ≠ "" → isValidModel availableModels m = true →
        resolveModel defaultModel availableModels (some m) = m) := by
  refine ⟨rfl, ?_, ?_, ?_⟩
  · intro m hm
    simp [resolveModel, hm]
  · intro m hm
    by_cases ht : m.trim = "" <;> simp [resolveModel, ht, hm]
  · intro m ht hv
    simp [resolveModel, ht, hv]

end FreeQwenApi
